import Mathlib

/-
Verification of the etl variant (src/include/etl/private/variant_variadic.h).

The variant over a closed alternative list is embedded shallowly:

* An `AltSet` packages the compile-time data of the alternative list: the
  number `n` of alternatives, a Lean type `Val` of alternative values, the
  map `tyOf` giving the alternative index a value belongs to, the residue
  `movedFrom` a value leaves behind after being moved from, and the
  alternatives' own `==` and `<` (`eqv`, `ltv`).  The alternative types are
  assumed pairwise distinct, so "first index of type T" coincides with the
  index of the alternative itself.
* A `Variant` mirrors the three members of `etl::variant`: `data` (the raw
  storage, modelled as the live value currently constructed in it, if any),
  `operation` (the bound operation function pointer, identified by the
  alternative it dispatches for, or the null operation), and `type_id`.
* `do_operation` embeds `private_variant::operation_type<T>::do_operation`.
  Destructor invocations are recorded as `Event.destroy i` so that claims
  about "the destructor runs exactly once" are statements about the emitted
  event list.  A dispatch that would reinterpret storage at the wrong type,
  or destroy dead storage, is undefined behaviour in C++ and is recorded as
  `Event.ub` without changing the state.
* Fallible accessors (`get`, visitation, comparison) return
  `Except AccessError _`; an `ETL_ASSERT` failure is an `.error`.
-/

namespace EtlVariant

/-- `etl::variant_npos = etl::integral_limits<size_t>::max` for a 64-bit
`size_t`. -/
def variant_npos : Nat := 2 ^ 64 - 1

namespace private_variant

/-- Operation selector `private_variant::Copy`. -/
def Copy : Nat := 0

/-- Operation selector `private_variant::Move`. -/
def Move : Nat := 1

/-- Operation selector `private_variant::Destroy`. -/
def Destroy : Nat := 2

end private_variant

/-- The closed, compile-time alternative list of a variant, together with the
per-alternative behaviour the variant dispatches to. -/
structure AltSet where
  n : Nat
  Val : Type
  tyOf : Val → Nat
  movedFrom : Val → Val
  eqv : Val → Val → Bool
  ltv : Val → Val → Bool
  moved_ty : ∀ v, tyOf (movedFrom v) = tyOf v

/-- The operation binding: the `operation` member of `etl::variant` is a
function pointer to `operation_type<T, ...>::do_operation` for the currently
held alternative `T`, or to the null operation
`operation_type<void, false, false>::do_operation`. -/
inductive OpBind where
  | null : OpBind
  | forType : Nat → OpBind
deriving DecidableEq

/-- Observable effects of dispatched operations.  `destroy i` records that the
destructor of alternative `i` ran on the storage; `ub` records a dispatch that
is undefined behaviour in C++ (reinterpreting storage at the wrong type, or
destroying storage with no live object). -/
inductive Event where
  | destroy : Nat → Event
  | ub : Event
deriving DecidableEq

/-- Failure signals of the variant: `ETL_ERROR(variant_incorrect_type_exception)`,
`ETL_ERROR(bad_variant_access)`, and undefined behaviour. -/
inductive AccessError where
  | incorrect_type : AccessError
  | bad_access : AccessError
  | ub : AccessError
deriving DecidableEq

/-- `private_variant::operation_type<T, IsCopyable, IsMoveable>::do_operation`
for the bound alternative, acting on the destination storage `store` and the
source storage `src`.  Returns the new destination storage, the new source
storage, and the emitted events.

* `Copy`: `::new (pstorage) T(*reinterpret_cast<const T*>(pvalue))`.
* `Move`: `::new (pstorage) T(etl::move(*reinterpret_cast<T*>(pvalue)))`; the
  source is left holding the moved-from residue of its value.
* `Destroy`: `reinterpret_cast<const T*>(pstorage)->~T()`.
* The null operation and the `default` switch branch do nothing. -/
def do_operation (A : AltSet) (bound : OpBind) (op_code : Nat)
    (store src : Option A.Val) : Option A.Val × Option A.Val × List Event :=
  match bound with
  | .null => (store, src, [])
  | .forType i =>
    match op_code with
    | 0 =>
      match src with
      | some x => if A.tyOf x = i then (some x, src, []) else (store, src, [Event.ub])
      | none => (store, src, [Event.ub])
    | 1 =>
      match src with
      | some x =>
        if A.tyOf x = i then (some x, some (A.movedFrom x), []) else (store, src, [Event.ub])
      | none => (store, src, [Event.ub])
    | 2 =>
      match store with
      | some x => if A.tyOf x = i then (none, src, [Event.destroy i]) else (store, src, [Event.ub])
      | none => (store, src, [Event.ub])
    | _ => (store, src, [])

/-- The state of an `etl::variant<TTypes...>`: the storage buffer (as the live
value constructed in it, if any), the bound operation function, and the tag. -/
structure Variant (A : AltSet) where
  data : Option A.Val
  operation : OpBind
  type_id : Nat

/-- Construction from a value of alternative type (`variant(T&& value)`, and
likewise the in-place constructors, which construct a value of the named
alternative from forwarded arguments): constructs the value into storage,
binds the operation for its type, and sets the tag to its index. -/
def ofValue (A : AltSet) (x : A.Val) : Variant A :=
  { data := some x, operation := OpBind.forType (A.tyOf x), type_id := A.tyOf x }

/-- Copy constructor `variant(const variant& other)` for a freshly constructed
destination (so `this != &other`): `operation` and `type_id` are copied from
the source; if the source is valueless the tag is set to `variant_npos` and
nothing is constructed, otherwise the bound `Copy` operation copy-constructs
the destination storage from the source storage.  Returns the new variant and
the emitted events. -/
def copyCtor (A : AltSet) (other : Variant A) : Variant A × List Event :=
  if other.type_id = variant_npos then
    ({ data := none, operation := other.operation, type_id := variant_npos }, [])
  else
    let r := do_operation A other.operation private_variant.Copy none other.data
    ({ data := r.1, operation := other.operation, type_id := other.type_id }, r.2.2)

/-- Move constructor `variant(variant&& other)` in the `this != &other` case:
like the copy constructor but dispatching `Move`, which leaves the source
storage holding the moved-from residue of its value.  Returns the new variant,
the updated source, and the emitted events. -/
def moveCtor (A : AltSet) (other : Variant A) : Variant A × Variant A × List Event :=
  if other.type_id = variant_npos then
    ({ data := none, operation := other.operation, type_id := variant_npos }, other, [])
  else
    let r := do_operation A other.operation private_variant.Move none other.data
    ({ data := r.1, operation := other.operation, type_id := other.type_id },
     { other with data := r.2.1 }, r.2.2)

/-- Move constructor in the self-move case (`this == &other`, e.g.
`etl::variant<int> v(etl::move(v));`): the guard sets `type_id = variant_npos`
and nothing is ever constructed in storage.  (The code copies its own
uninitialized `operation` member; the binding is modelled as the null
operation.) -/
def moveCtorSelf (A : AltSet) : Variant A :=
  { data := none, operation := OpBind.null, type_id := variant_npos }

/-- Destructor `~variant()`: if the tag is not `variant_npos`, dispatch
`Destroy` through the bound operation; then reset the binding to the null
operation and the tag to `variant_npos`. -/
def destruct (A : AltSet) (v : Variant A) : Variant A × List Event :=
  if v.type_id ≠ variant_npos then
    let r := do_operation A v.operation private_variant.Destroy v.data none
    ({ data := r.1, operation := OpBind.null, type_id := variant_npos }, r.2.2)
  else
    ({ data := v.data, operation := OpBind.null, type_id := variant_npos }, [])

/-- `emplace<T>(args...)` and `emplace<Index>(args...)`: unconditionally
dispatch `Destroy` through the currently bound operation, construct the new
alternative from the forwarded arguments (`newVal` is the value constructed by
`construct_in_place_args`; its index is `index_of_type<T>::value` resp.
`Index`), rebind the operation, update the tag, and return a reference to the
newly constructed value. -/
def emplace (A : AltSet) (v : Variant A) (newVal : A.Val) :
    Variant A × A.Val × List Event :=
  let r := do_operation A v.operation private_variant.Destroy v.data none
  ({ data := some newVal, operation := OpBind.forType (A.tyOf newVal),
     type_id := A.tyOf newVal }, newVal, r.2.2)

/-- `operator =(T&& value)` for a value of alternative type: unconditionally
dispatch `Destroy` through the bound operation, construct the new value,
rebind, and update the tag. -/
def assignValue (A : AltSet) (v : Variant A) (newVal : A.Val) :
    Variant A × List Event :=
  let r := do_operation A v.operation private_variant.Destroy v.data none
  ({ data := some newVal, operation := OpBind.forType (A.tyOf newVal),
     type_id := A.tyOf newVal }, r.2.2)

/-- Copy assignment `operator =(const variant& other)` in the
`this != &other` case: if the source is valueless, only the tag is set to
`variant_npos` (the storage and the binding are left untouched, and no destroy
is dispatched); otherwise `Destroy` is dispatched through the destination's
bound operation, the binding is rebound to the source's, `Copy` is dispatched,
and the tag is copied. -/
def copyAssign (A : AltSet) (self other : Variant A) : Variant A × List Event :=
  if other.type_id = variant_npos then
    ({ self with type_id := variant_npos }, [])
  else
    let r1 := do_operation A self.operation private_variant.Destroy self.data none
    let r2 := do_operation A other.operation private_variant.Copy r1.1 other.data
    ({ data := r2.1, operation := other.operation, type_id := other.type_id },
     r1.2.2 ++ r2.2.2)

/-- Move assignment `operator =(variant&& other)` in the `this != &other`
case: like copy assignment but dispatching `Move`, which leaves the source
storage holding the moved-from residue.  Returns the new destination, the
updated source, and the emitted events. -/
def moveAssign (A : AltSet) (self other : Variant A) :
    Variant A × Variant A × List Event :=
  if other.type_id = variant_npos then
    ({ self with type_id := variant_npos }, other, [])
  else
    let r1 := do_operation A self.operation private_variant.Destroy self.data none
    let r2 := do_operation A other.operation private_variant.Move r1.1 other.data
    ({ data := r2.1, operation := other.operation, type_id := other.type_id },
     { other with data := r2.2.1 }, r1.2.2 ++ r2.2.2)

/-- `variant::swap(variant& rhs)` for distinct objects: a three-way move
through a temporary — `variant temp(etl::move(*this)); *this = etl::move(rhs);
rhs = etl::move(temp);` — followed by the temporary's destruction at the end
of its scope.  Returns the new `*this`, the new `rhs`, and all emitted
events. -/
def swapVariant (A : AltSet) (self rhs : Variant A) :
    Variant A × Variant A × List Event :=
  let m := moveCtor A self
  let temp := m.1
  let self1 := m.2.1
  let a2 := moveAssign A self1 rhs
  let a3 := moveAssign A a2.2.1 temp
  let d := destruct A a3.2.1
  (a2.1, a3.1, m.2.2 ++ a2.2.2 ++ a3.2.2 ++ d.2)

/-- `etl::get<Index>(variant&)` (and the `const variant&` / `const variant&&`
overloads, which have the same check): `ETL_ASSERT(Index == v.index(), ...)`
signals `variant_incorrect_type_exception` when the requested index does not
equal the current tag, otherwise the storage is reinterpreted at the requested
alternative's type. -/
def getIndexLValue (A : AltSet) (i : Nat) (v : Variant A) : Except AccessError A.Val :=
  if i = v.type_id then
    match v.data with
    | some x => if A.tyOf x = i then Except.ok x else Except.error AccessError.ub
    | none => Except.error AccessError.ub
  else
    Except.error AccessError.incorrect_type

/-- `etl::get<Index>(variant&&)` — the non-const rvalue overload: it contains
no `ETL_ASSERT` at all; the storage is reinterpreted at the requested
alternative's type unconditionally (undefined behaviour when the tag does not
match). -/
def getIndexRValue (A : AltSet) (i : Nat) (v : Variant A) : Except AccessError A.Val :=
  match v.data with
  | some x => if A.tyOf x = i then Except.ok x else Except.error AccessError.ub
  | none => Except.error AccessError.ub

/-- `private_variant::do_visit` specialised to one variant (the path taken by
`etl::visit(callable, v)`): `ETL_ASSERT(!v.valueless_by_exception(), ...)`
signals `bad_variant_access`, then the jump table entry for `v.index()`
invokes the callable with `etl::get<index>(v)`. -/
def do_visit (A : AltSet) {β : Type} (f : A.Val → β) (v : Variant A) :
    Except AccessError β :=
  if v.type_id = variant_npos then
    Except.error AccessError.bad_access
  else if v.type_id < A.n then
    match getIndexLValue A v.type_id v with
    | Except.ok x => Except.ok (f x)
    | Except.error e => Except.error e
  else
    Except.error AccessError.ub

/-- `variant::attempt_visitor<Index>`: if `Index == index()`, call
`visitor.visit(etl::get<Index>(*this))` and return `true`, else return
`false`.  The result is `some x` when the visitor was invoked with `x`. -/
def attempt_visitor (A : AltSet) (i : Nat) (v : Variant A) :
    Except AccessError (Option A.Val) :=
  if i = v.type_id then
    match getIndexLValue A i v with
    | Except.ok x => Except.ok (some x)
    | Except.error e => Except.error e
  else
    Except.ok none

/-- The fold `(attempt_visitor<I>(visitor) || ...)` of `variant::do_visitor`
over the index sequence: attempts each index in turn, short-circuiting after
the first invocation.  Returns the list of values the visitor was invoked
with (at most one). -/
def do_visitor (A : AltSet) (v : Variant A) : List Nat → Except AccessError (List A.Val)
  | [] => Except.ok []
  | i :: rest =>
    match attempt_visitor A i v with
    | Except.error e => Except.error e
    | Except.ok (some x) => Except.ok [x]
    | Except.ok none => do_visitor A v rest

/-- `variant::accept(TVisitor&)` for an `etl::visitor`: folds
`attempt_visitor` over indices `0 .. N-1`.  Note there is no valueless check
anywhere on this path. -/
def accept (A : AltSet) (v : Variant A) : Except AccessError (List A.Val) :=
  do_visitor A v (List.range A.n)

/-- `variant::attempt_operator<Index>`: as `attempt_visitor` but invoking a
generic functor `visitor(etl::get<Index>(*this))`. -/
def attempt_operator (A : AltSet) (i : Nat) (v : Variant A) :
    Except AccessError (Option A.Val) :=
  if i = v.type_id then
    match getIndexLValue A i v with
    | Except.ok x => Except.ok (some x)
    | Except.error e => Except.error e
  else
    Except.ok none

/-- The fold `(attempt_operator<I>(visitor) || ...)` of
`variant::do_operator`. -/
def do_operator_fold (A : AltSet) (v : Variant A) :
    List Nat → Except AccessError (List A.Val)
  | [] => Except.ok []
  | i :: rest =>
    match attempt_operator A i v with
    | Except.error e => Except.error e
    | Except.ok (some x) => Except.ok [x]
    | Except.ok none => do_operator_fold A v rest

/-- `variant::accept(TVisitor&)` for a generic functor: folds
`attempt_operator` over indices `0 .. N-1`.  No valueless check on this path
either. -/
def acceptFunctor (A : AltSet) (v : Variant A) : Except AccessError (List A.Val) :=
  do_operator_fold A v (List.range A.n)

/-- `operator ==(const variant&, const variant&)`: both valueless — equal;
exactly one valueless — unequal; differing tags — unequal; equal tags —
`etl::visit(equality_visitor(rhs), lhs)`, whose body compares the held value
against `etl::get<TValue>(rhs)` (the by-type get, whose index is the held
alternative's index since the alternative types are distinct). -/
def variantEq (A : AltSet) (lhs rhs : Variant A) : Except AccessError Bool :=
  if lhs.type_id = variant_npos ∧ rhs.type_id = variant_npos then
    Except.ok true
  else if lhs.type_id = variant_npos ∨ rhs.type_id = variant_npos then
    Except.ok false
  else if lhs.type_id ≠ rhs.type_id then
    Except.ok false
  else
    match do_visit A (fun x => (getIndexLValue A (A.tyOf x) rhs).map (fun y => A.eqv x y)) lhs with
    | Except.ok r => r
    | Except.error e => Except.error e

/-- `operator <(const variant&, const variant&)`: both valueless — not less;
valueless lhs — less; valueless rhs — not less; differing tags — compare the
tags; equal tags — `etl::visit(less_than_visitor(rhs), lhs)` comparing the
held values with the alternative's own `<`. -/
def variantLt (A : AltSet) (lhs rhs : Variant A) : Except AccessError Bool :=
  if lhs.type_id = variant_npos ∧ rhs.type_id = variant_npos then
    Except.ok false
  else if lhs.type_id = variant_npos then
    Except.ok true
  else if rhs.type_id = variant_npos then
    Except.ok false
  else if lhs.type_id ≠ rhs.type_id then
    Except.ok (decide (lhs.type_id < rhs.type_id))
  else
    match do_visit A (fun x => (getIndexLValue A (A.tyOf x) rhs).map (fun y => A.ltv x y)) lhs with
    | Except.ok r => r
    | Except.error e => Except.error e

/-- `etl::holds_alternative<T>(v)`: `idx` is
`type_list_index_of_type<type_list<TTypes...>, T>::value`, which is
`variant_npos` when `T` is not a member of the alternative list.  The code
returns `(Index == variant_npos) ? false : (v.index() == Index)`. -/
def holds_alternative (A : AltSet) (idx : Nat) (v : Variant A) : Bool :=
  if idx = variant_npos then false else decide (v.type_id = idx)

/-- Storage component of well-formedness: the storage holds a live value whose
alternative index is the current tag. -/
def wfStorage (A : AltSet) (v : Variant A) : Bool :=
  match v.data with
  | some x => A.tyOf x == v.type_id
  | none => false

/-- Well-formedness of a variant state (the direction of the consistency
invariant the code maintains): whenever the tag is not the sentinel, it is a
valid alternative index, the operation is bound for exactly that alternative,
and the storage holds a live value of that alternative. -/
def wf (A : AltSet) (v : Variant A) : Prop :=
  v.type_id ≠ variant_npos →
    (v.type_id < A.n ∧ v.operation = OpBind.forType v.type_id ∧ wfStorage A v = true)

instance (A : AltSet) (v : Variant A) : Decidable (wf A v) := by
  unfold wf; infer_instance

/-- The index (`tyOf`) of the concrete two-alternative instance
`etl::variant<int, bool>`: alternative 0 is `int`, alternative 1 is `bool`. -/
def valTy : Nat ⊕ Bool → Nat
  | Sum.inl _ => 0
  | Sum.inr _ => 1

/-- A concrete two-alternative instance, `etl::variant<int, bool>`, used to
evaluate the model on explicit inputs. -/
def A2 : AltSet where
  n := 2
  Val := Nat ⊕ Bool
  tyOf := valTy
  movedFrom := fun v => match v with
    | Sum.inl _ => Sum.inl 0
    | Sum.inr _ => Sum.inr false
  eqv := fun a b => match a, b with
    | Sum.inl x, Sum.inl y => x == y
    | Sum.inr x, Sum.inr y => x == y
    | _, _ => false
  ltv := fun a b => match a, b with
    | Sum.inl x, Sum.inl y => decide (x < y)
    | Sum.inr x, Sum.inr y => !x && y
    | _, _ => false
  moved_ty := fun v => by cases v <;> rfl

/-- A variant whose tag is the sentinel is trivially well-formed. -/
lemma wf_of_npos {A : AltSet} {v : Variant A} (h : v.type_id = variant_npos) : wf A v :=
  fun hc => absurd h hc

/-- Unpacking well-formedness at a live tag. -/
lemma wf_elim {A : AltSet} {v : Variant A} (hwf : wf A v) (h : v.type_id ≠ variant_npos) :
    ∃ x, v.data = some x ∧ A.tyOf x = v.type_id ∧
      v.operation = OpBind.forType v.type_id ∧ v.type_id < A.n := by
  obtain ⟨hn, hop, hst⟩ := hwf h
  cases hd : v.data with
  | none => simp [wfStorage, hd] at hst
  | some x =>
    simp only [wfStorage, hd, beq_iff_eq] at hst
    exact ⟨x, rfl, hst, hop, hn⟩

/-- Building well-formedness from components. -/
lemma wf_mk {A : AltSet} {x : A.Val} {i : Nat} (hn : i < A.n) (ht : A.tyOf x = i) :
    wf A ({ data := some x, operation := OpBind.forType i, type_id := i } : Variant A) := by
  intro _
  exact ⟨hn, rfl, by simp [wfStorage, ht]⟩

/-- `Copy` dispatch at the matching type copy-constructs the source value into
the destination storage and leaves the source unchanged. -/
lemma do_operation_copy {A : AltSet} {i : Nat} {x : A.Val} (ht : A.tyOf x = i)
    (store : Option A.Val) :
    do_operation A (OpBind.forType i) private_variant.Copy store (some x) =
      (some x, some x, []) := by
  simp [do_operation, private_variant.Copy, ht]

/-- `Move` dispatch at the matching type move-constructs the source value into
the destination storage and leaves the moved-from residue in the source. -/
lemma do_operation_move {A : AltSet} {i : Nat} {x : A.Val} (ht : A.tyOf x = i)
    (store : Option A.Val) :
    do_operation A (OpBind.forType i) private_variant.Move store (some x) =
      (some x, some (A.movedFrom x), []) := by
  simp [do_operation, private_variant.Move, ht]

/-- `Destroy` dispatch at the matching type destroys the stored value and
records exactly one destructor invocation of that alternative. -/
lemma do_operation_destroy {A : AltSet} {i : Nat} {x : A.Val} (ht : A.tyOf x = i)
    (src : Option A.Val) :
    do_operation A (OpBind.forType i) private_variant.Destroy (some x) src =
      (none, src, [Event.destroy i]) := by
  simp [do_operation, private_variant.Destroy, ht]

/-- Copy construction from a live well-formed source. -/
lemma copyCtor_live {A : AltSet} {other : Variant A} {x : A.Val}
    (h : other.type_id ≠ variant_npos) (hd : other.data = some x)
    (ht : A.tyOf x = other.type_id) (hop : other.operation = OpBind.forType other.type_id) :
    copyCtor A other =
      ({ data := some x, operation := other.operation, type_id := other.type_id }, []) := by
  simp [copyCtor, h, hop, hd, do_operation_copy ht]

/-- The copy constructor preserves well-formedness. -/
lemma copyCtor_wf {A : AltSet} {other : Variant A} (hwf : wf A other) :
    wf A (copyCtor A other).1 := by
  by_cases h : other.type_id = variant_npos
  · simp only [copyCtor, h, if_pos rfl]
    exact wf_of_npos rfl
  · obtain ⟨x, hd, ht, hop, hn⟩ := wf_elim hwf h
    rw [copyCtor_live h hd ht hop]
    intro _
    exact ⟨hn, hop, by simp [wfStorage, ht]⟩

/-- Move construction from a distinct live well-formed source. -/
lemma moveCtor_live {A : AltSet} {other : Variant A} {x : A.Val}
    (h : other.type_id ≠ variant_npos) (hd : other.data = some x)
    (ht : A.tyOf x = other.type_id) (hop : other.operation = OpBind.forType other.type_id) :
    moveCtor A other =
      ({ data := some x, operation := other.operation, type_id := other.type_id },
       { other with data := some (A.movedFrom x) }, []) := by
  simp [moveCtor, h, hop, hd, do_operation_move ht]

/-- The move constructor's destination is well-formed. -/
lemma moveCtor_wf_dst {A : AltSet} {other : Variant A} (hwf : wf A other) :
    wf A (moveCtor A other).1 := by
  by_cases h : other.type_id = variant_npos
  · simp only [moveCtor, h, if_pos rfl]
    exact wf_of_npos rfl
  · obtain ⟨x, hd, ht, hop, hn⟩ := wf_elim hwf h
    rw [moveCtor_live h hd ht hop]
    intro _
    exact ⟨hn, hop, by simp [wfStorage, ht]⟩

/-- The move constructor's source stays well-formed (it keeps a live,
moved-from value of the same alternative). -/
lemma moveCtor_wf_src {A : AltSet} {other : Variant A} (hwf : wf A other) :
    wf A (moveCtor A other).2.1 := by
  by_cases h : other.type_id = variant_npos
  · simp only [moveCtor, h, if_pos rfl]
    exact hwf
  · obtain ⟨x, hd, ht, hop, hn⟩ := wf_elim hwf h
    rw [moveCtor_live h hd ht hop]
    intro _
    exact ⟨hn, hop, by simp [wfStorage, A.moved_ty, ht]⟩

/-- Copy assignment from a distinct live well-formed source. -/
lemma copyAssign_live {A : AltSet} {self other : Variant A} {x : A.Val}
    (h : other.type_id ≠ variant_npos) (hd : other.data = some x)
    (ht : A.tyOf x = other.type_id) (hop : other.operation = OpBind.forType other.type_id) :
    copyAssign A self other =
      ({ data := some x, operation := other.operation, type_id := other.type_id },
       (do_operation A self.operation private_variant.Destroy self.data none).2.2) := by
  simp [copyAssign, h, hop, hd, do_operation_copy ht]

/-- Copy assignment preserves well-formedness of the destination. -/
lemma copyAssign_wf {A : AltSet} {self other : Variant A} (hwf : wf A other) :
    wf A (copyAssign A self other).1 := by
  by_cases h : other.type_id = variant_npos
  · simp only [copyAssign, h, if_pos rfl]
    exact wf_of_npos rfl
  · obtain ⟨x, hd, ht, hop, hn⟩ := wf_elim hwf h
    rw [copyAssign_live h hd ht hop]
    intro _
    exact ⟨hn, hop, by simp [wfStorage, ht]⟩

/-- Move assignment from a distinct live well-formed source. -/
lemma moveAssign_live {A : AltSet} {self other : Variant A} {x : A.Val}
    (h : other.type_id ≠ variant_npos) (hd : other.data = some x)
    (ht : A.tyOf x = other.type_id) (hop : other.operation = OpBind.forType other.type_id) :
    moveAssign A self other =
      ({ data := some x, operation := other.operation, type_id := other.type_id },
       { other with data := some (A.movedFrom x) },
       (do_operation A self.operation private_variant.Destroy self.data none).2.2) := by
  simp [moveAssign, h, hop, hd, do_operation_move ht]

/-- Move assignment's destination is well-formed. -/
lemma moveAssign_wf_dst {A : AltSet} {self other : Variant A} (hwf : wf A other) :
    wf A (moveAssign A self other).1 := by
  by_cases h : other.type_id = variant_npos
  · simp only [moveAssign, h, if_pos rfl]
    exact wf_of_npos rfl
  · obtain ⟨x, hd, ht, hop, hn⟩ := wf_elim hwf h
    rw [moveAssign_live h hd ht hop]
    intro _
    exact ⟨hn, hop, by simp [wfStorage, ht]⟩

/-- Move assignment's source stays well-formed. -/
lemma moveAssign_wf_src {A : AltSet} {self other : Variant A} (hwf : wf A other) :
    wf A (moveAssign A self other).2.1 := by
  by_cases h : other.type_id = variant_npos
  · simp only [moveAssign, h, if_pos rfl]
    exact hwf
  · obtain ⟨x, hd, ht, hop, hn⟩ := wf_elim hwf h
    rw [moveAssign_live h hd ht hop]
    intro _
    exact ⟨hn, hop, by simp [wfStorage, A.moved_ty, ht]⟩

/-- Destruction of a variant whose tag is the sentinel dispatches nothing. -/
lemma destruct_npos {A : AltSet} {v : Variant A} (h : v.type_id = variant_npos) :
    destruct A v =
      ({ data := v.data, operation := OpBind.null, type_id := variant_npos }, []) := by
  simp [destruct, h]

/-- Destruction of a live well-formed variant runs the held alternative's
destructor exactly once. -/
lemma destruct_live {A : AltSet} {v : Variant A} {x : A.Val}
    (h : v.type_id ≠ variant_npos) (hd : v.data = some x)
    (ht : A.tyOf x = v.type_id) (hop : v.operation = OpBind.forType v.type_id) :
    destruct A v =
      ({ data := none, operation := OpBind.null, type_id := variant_npos },
       [Event.destroy v.type_id]) := by
  simp [destruct, h, hop, hd, do_operation_destroy ht]

/-- The tag after destruction is always the sentinel. -/
lemma destruct_tag {A : AltSet} {v : Variant A} :
    (destruct A v).1.type_id = variant_npos := by
  unfold destruct
  split <;> rfl

/-- `get<Index>` at the matching index returns the stored value. -/
lemma getIndexLValue_hit {A : AltSet} {i : Nat} {v : Variant A} {x : A.Val}
    (hi : i = v.type_id) (hd : v.data = some x) (ht : A.tyOf x = i) :
    getIndexLValue A i v = Except.ok x := by
  simp [getIndexLValue, hi, hd, ht.trans hi]

/-- Visitation of a live well-formed variant invokes the callable on the
stored value. -/
lemma do_visit_live {A : AltSet} {β : Type} (f : A.Val → β) {v : Variant A} {x : A.Val}
    (h : v.type_id ≠ variant_npos) (hn : v.type_id < A.n)
    (hd : v.data = some x) (ht : A.tyOf x = v.type_id) :
    do_visit A f v = Except.ok (f x) := by
  simp [do_visit, h, hn, getIndexLValue_hit rfl hd ht]

/-- A fold of visit attempts over indices none of which equals the tag makes
no call and signals nothing. -/
lemma do_visitor_none {A : AltSet} {v : Variant A} :
    ∀ l : List Nat, (∀ i ∈ l, i ≠ v.type_id) → do_visitor A v l = Except.ok []
  | [], _ => rfl
  | i :: rest, h => by
    have hi : i ≠ v.type_id := h i (List.mem_cons_self i rest)
    simp only [do_visitor, attempt_visitor, if_neg hi]
    exact do_visitor_none rest fun j hj => h j (List.mem_cons_of_mem i hj)

/-- As `do_visitor_none`, for the generic-functor fold. -/
lemma do_operator_fold_none {A : AltSet} {v : Variant A} :
    ∀ l : List Nat, (∀ i ∈ l, i ≠ v.type_id) → do_operator_fold A v l = Except.ok []
  | [], _ => rfl
  | i :: rest, h => by
    have hi : i ≠ v.type_id := h i (List.mem_cons_self i rest)
    simp only [do_operator_fold, attempt_operator, if_neg hi]
    exact do_operator_fold_none rest fun j hj => h j (List.mem_cons_of_mem i hj)

/-- Equality of two live variants with the same tag reduces to the held
values' own equality. -/
lemma variantEq_live {A : AltSet} {a b : Variant A} {x y : A.Val}
    (ha : a.type_id ≠ variant_npos) (heq : a.type_id = b.type_id)
    (han : a.type_id < A.n)
    (had : a.data = some x) (hat : A.tyOf x = a.type_id)
    (hbd : b.data = some y) (hbt : A.tyOf y = b.type_id) :
    variantEq A a b = Except.ok (A.eqv x y) := by
  have hb : b.type_id ≠ variant_npos := heq ▸ ha
  have hbx : A.tyOf x = b.type_id := hat.trans heq
  simp [variantEq, ha, hb, heq, Except.map, do_visit_live _ ha han had hat,
        getIndexLValue_hit (i := A.tyOf x) (hat.trans heq) hbd (hbt.trans hbx.symm)]

/-- Less-than of two live variants with the same tag reduces to the held
values' own ordering. -/
lemma variantLt_live {A : AltSet} {a b : Variant A} {x y : A.Val}
    (ha : a.type_id ≠ variant_npos) (heq : a.type_id = b.type_id)
    (han : a.type_id < A.n)
    (had : a.data = some x) (hat : A.tyOf x = a.type_id)
    (hbd : b.data = some y) (hbt : A.tyOf y = b.type_id) :
    variantLt A a b = Except.ok (A.ltv x y) := by
  have hb : b.type_id ≠ variant_npos := heq ▸ ha
  have hbx : A.tyOf x = b.type_id := hat.trans heq
  simp [variantLt, ha, hb, heq, Except.map, do_visit_live _ ha han had hat,
        getIndexLValue_hit (i := A.tyOf x) (hat.trans heq) hbd (hbt.trans hbx.symm)]

/-- The three-way move of `swap` evaluated on destructured live operands. -/
lemma swap_components {A : AltSet} {x y : A.Val} {i j : Nat}
    (hi : i ≠ variant_npos) (hj : j ≠ variant_npos)
    (hx : A.tyOf x = i) (hy : A.tyOf y = j) :
    swapVariant A { data := some x, operation := OpBind.forType i, type_id := i }
        { data := some y, operation := OpBind.forType j, type_id := j } =
      ({ data := some y, operation := OpBind.forType j, type_id := j },
       { data := some x, operation := OpBind.forType i, type_id := i },
       [Event.destroy i, Event.destroy j, Event.destroy i]) := by
  have hmx : A.tyOf (A.movedFrom x) = i := (A.moved_ty x).trans hx
  have hmy : A.tyOf (A.movedFrom y) = j := (A.moved_ty y).trans hy
  simp [swapVariant, moveCtor, moveAssign, destruct, hi, hj,
    do_operation_move hx, do_operation_move hy,
    do_operation_destroy hmx, do_operation_destroy hmy]

/-- C1, counterexample.  The claim asserts that after every operation,
`tag = sentinel` implies storage holds no live value.  It fails on the code:
copy assignment from a valueless source (here one produced by the code's own
self-move-construction guard) into a destination holding a live value of
alternative 0 only sets `type_id = variant_npos`; the destination's previous
value is still live in storage (and its destructor never ran). -/
theorem C1_counterexample :
    (copyAssign A2 (ofValue A2 (Sum.inl 5)) (moveCtorSelf A2)).1.type_id = variant_npos ∧
    (copyAssign A2 (ofValue A2 (Sum.inl 5)) (moveCtorSelf A2)).1.data = some (Sum.inl 5) :=
  ⟨rfl, rfl⟩

/-- C1, amended: the direction of the consistency invariant the code does
maintain.  After every operation (construction from a value, copy/move
construction, self-move construction, copy/move assignment, assignment from a
value, emplace, swap, destruction), whenever the tag is an alternative index
`i`, storage holds a live value of alternative `i` and the operation binding
dispatches for exactly that type; the variant's destructor invokes no
destructor when the tag is the sentinel, and invokes exactly the held
alternative's destructor, once, when the tag is live.  (The converse sentinel
direction — `tag = sentinel` implies storage holds no live value — does not
hold after assignment from a valueless source, which leaks the previous
value; see `C1_counterexample`.) -/
theorem C1_invariant (A : AltSet) (self other v : Variant A) (x newVal : A.Val) :
    (A.tyOf x < A.n → wf A (ofValue A x)) ∧
    (wf A other → wf A (copyCtor A other).1) ∧
    (wf A other → wf A (moveCtor A other).1 ∧ wf A (moveCtor A other).2.1) ∧
    wf A (moveCtorSelf A) ∧
    (wf A other → wf A (copyAssign A self other).1) ∧
    (wf A other → wf A (moveAssign A self other).1 ∧ wf A (moveAssign A self other).2.1) ∧
    (A.tyOf newVal < A.n → wf A (emplace A v newVal).1) ∧
    (A.tyOf newVal < A.n → wf A (assignValue A v newVal).1) ∧
    (wf A self → wf A other →
      wf A (swapVariant A self other).1 ∧ wf A (swapVariant A self other).2.1) ∧
    wf A (destruct A v).1 ∧
    (v.type_id = variant_npos → (destruct A v).2 = []) ∧
    (wf A v → v.type_id ≠ variant_npos → (destruct A v).2 = [Event.destroy v.type_id]) := by
  refine ⟨fun hn => wf_mk hn rfl,
    fun h => copyCtor_wf h,
    fun h => ⟨moveCtor_wf_dst h, moveCtor_wf_src h⟩,
    wf_of_npos rfl,
    fun h => copyAssign_wf h,
    fun h => ⟨moveAssign_wf_dst h, moveAssign_wf_src h⟩,
    fun hn => wf_mk hn rfl,
    fun hn => wf_mk hn rfl,
    fun ha hb => ⟨moveAssign_wf_dst hb, moveAssign_wf_dst (moveCtor_wf_dst ha)⟩,
    wf_of_npos destruct_tag,
    fun h => by simp [destruct_npos h],
    fun hwf hl => ?_⟩
  obtain ⟨x', hd, ht, hop, _⟩ := wf_elim hwf hl
  simp [destruct_live hl hd ht hop]

/-- C1, witness: the amended invariant applied at a concrete copy assignment
and a concrete destruction over `etl::variant<int, bool>`. -/
theorem C1_witness :
    wf A2 (copyAssign A2 (ofValue A2 (Sum.inl 1)) (ofValue A2 (Sum.inr true))).1 ∧
    (destruct A2 (ofValue A2 (Sum.inr true))).2 = [Event.destroy 1] := by
  obtain ⟨h1, h2, h3, h4, h5, h6, h7, h8, h9, h10, h11, h12⟩ :=
    C1_invariant A2 (ofValue A2 (Sum.inl 1)) (ofValue A2 (Sum.inr true))
      (ofValue A2 (Sum.inr true)) (Sum.inl 0) (Sum.inl 0)
  exact ⟨h5 (by decide), h12 (by decide) (by decide)⟩

/-- C2, counterexample.  The claim asserts that assigning from a valueless
source destroys the destination's previous live value exactly once.  On the
code no destroy is dispatched at all: the event list is empty and the
destination merely has its tag set to the sentinel. -/
theorem C2_counterexample :
    (copyAssign A2 (ofValue A2 (Sum.inr true)) (moveCtorSelf A2)).2 = [] ∧
    (copyAssign A2 (ofValue A2 (Sum.inr true)) (moveCtorSelf A2)).1.type_id = variant_npos ∧
    (moveAssign A2 (ofValue A2 (Sum.inr true)) (moveCtorSelf A2)).2.2 = [] :=
  ⟨rfl, rfl, rfl⟩

/-- C2, amended: copy and move assignment from a distinct valueless source
set the destination's tag to the sentinel and do nothing else — the
destination's previous live value is not destroyed (no destroy event), its
storage and operation binding are left untouched, and the source is
unchanged. -/
theorem C2_valueless_assign (A : AltSet) (self other : Variant A)
    (h : other.type_id = variant_npos) :
    copyAssign A self other = ({ self with type_id := variant_npos }, []) ∧
    moveAssign A self other = ({ self with type_id := variant_npos }, other, []) := by
  constructor <;> simp [copyAssign, moveAssign, h]

/-- C2, witness: the amended statement at a concrete destination holding
alternative 0 and a valueless source. -/
theorem C2_witness :
    copyAssign A2 (ofValue A2 (Sum.inl 9)) (moveCtorSelf A2)
      = ({ ofValue A2 (Sum.inl 9) with type_id := variant_npos }, []) ∧
    moveAssign A2 (ofValue A2 (Sum.inl 9)) (moveCtorSelf A2)
      = ({ ofValue A2 (Sum.inl 9) with type_id := variant_npos }, moveCtorSelf A2, []) :=
  C2_valueless_assign A2 (ofValue A2 (Sum.inl 9)) (moveCtorSelf A2) rfl

/-- C3, counterexample.  The claim asserts that every form of visitation on a
valueless variant signals bad access.  The `accept` member paths (formal
visitor and generic functor) fold `attempt_visitor` / `attempt_operator` over
the alternative indices with no valueless check: on a valueless variant they
complete normally with zero invocations of the caller's callable. -/
theorem C3_counterexample :
    accept A2 (moveCtorSelf A2) = Except.ok [] ∧
    acceptFunctor A2 (moveCtorSelf A2) = Except.ok [] ∧
    (moveCtorSelf A2).type_id = variant_npos :=
  ⟨rfl, rfl, rfl⟩

/-- C3, amended: `etl::visit` on a valueless variant signals bad access, but
the `accept` member paths (visitor object and generic functor) silently
complete without invoking the caller's callable and without signalling. -/
theorem C3_valueless_visitation (A : AltSet) {β : Type} (f : A.Val → β) (v : Variant A)
    (hn : A.n ≤ variant_npos) (hv : v.type_id = variant_npos) :
    do_visit A f v = Except.error AccessError.bad_access ∧
    accept A v = Except.ok [] ∧
    acceptFunctor A v = Except.ok [] := by
  have hne : ∀ i ∈ List.range A.n, i ≠ v.type_id := by
    intro i hi
    rw [hv]
    exact Nat.ne_of_lt (Nat.lt_of_lt_of_le (List.mem_range.mp hi) hn)
  exact ⟨by simp [do_visit, hv], do_visitor_none _ hne, do_operator_fold_none _ hne⟩

/-- C3, witness: the amended statement at a concrete valueless
`etl::variant<int, bool>`. -/
theorem C3_witness :
    do_visit A2 (fun _ => true) (moveCtorSelf A2) = Except.error AccessError.bad_access ∧
    accept A2 (moveCtorSelf A2) = Except.ok [] ∧
    acceptFunctor A2 (moveCtorSelf A2) = Except.ok [] :=
  C3_valueless_visitation A2 (fun _ => true) (moveCtorSelf A2) (by decide) rfl

/-- C4 (code bug): evaluation at the failing input.  `etl::get<1>` on an
lvalue `etl::variant<int, bool>` holding alternative 0 signals the
incorrect-type failure, but the non-const rvalue overload
`etl::get<1>(etl::move(v))` contains no `ETL_ASSERT` at all: it reinterprets
the storage at the wrong alternative's type (undefined behaviour) instead of
signalling.  Both overloads agree when the requested index matches. -/
theorem C4_rvalue_get_unchecked :
    getIndexRValue A2 1 (ofValue A2 (Sum.inl 42)) = Except.error AccessError.ub ∧
    getIndexLValue A2 1 (ofValue A2 (Sum.inl 42)) = Except.error AccessError.incorrect_type ∧
    getIndexLValue A2 0 (ofValue A2 (Sum.inl 42)) = Except.ok (Sum.inl 42) ∧
    getIndexRValue A2 0 (ofValue A2 (Sum.inl 42)) = Except.ok (Sum.inl 42) :=
  ⟨rfl, rfl, rfl, rfl⟩

/-- C5: the comparison operators define the stated total order.  Two
valueless variants are equal and neither is less; a valueless variant is
strictly less than any live variant and never equal to it; live variants with
differing tags are unequal and ordered by tag; with equal tags, equality and
ordering delegate to the held values' own `==` and `<`. -/
theorem C5_total_order (A : AltSet) (a b : Variant A) (hwa : wf A a) (hwb : wf A b) :
    (a.type_id = variant_npos → b.type_id = variant_npos →
      variantEq A a b = Except.ok true ∧ variantLt A a b = Except.ok false) ∧
    (a.type_id = variant_npos → b.type_id ≠ variant_npos →
      variantEq A a b = Except.ok false ∧ variantLt A a b = Except.ok true ∧
      variantLt A b a = Except.ok false) ∧
    (a.type_id ≠ variant_npos → b.type_id ≠ variant_npos → a.type_id ≠ b.type_id →
      variantEq A a b = Except.ok false ∧
      variantLt A a b = Except.ok (decide (a.type_id < b.type_id))) ∧
    (a.type_id ≠ variant_npos → a.type_id = b.type_id →
      ∃ x y, a.data = some x ∧ b.data = some y ∧
        variantEq A a b = Except.ok (A.eqv x y) ∧
        variantLt A a b = Except.ok (A.ltv x y)) := by
  refine ⟨fun ha hb => ?_, fun ha hb => ?_, fun ha hb hne => ?_, fun ha heq => ?_⟩
  · exact ⟨by simp [variantEq, ha, hb], by simp [variantLt, ha, hb]⟩
  · exact ⟨by simp [variantEq, ha, hb], by simp [variantLt, ha, hb],
      by simp [variantLt, ha, hb]⟩
  · exact ⟨by simp [variantEq, ha, hb, hne], by simp [variantLt, ha, hb, hne]⟩
  · obtain ⟨x, had, hat, _, han⟩ := wf_elim hwa ha
    obtain ⟨y, hbd, hbt, _, _⟩ := wf_elim hwb (heq ▸ ha)
    exact ⟨x, y, had, hbd, variantEq_live ha heq han had hat hbd hbt,
      variantLt_live ha heq han had hat hbd hbt⟩

/-- C5, witness: the total order evaluated over `etl::variant<int, bool>` at
equal tags with unequal values, and at a valueless-versus-live pair. -/
theorem C5_witness :
    variantEq A2 (ofValue A2 (Sum.inl 3)) (ofValue A2 (Sum.inl 7)) = Except.ok false ∧
    variantLt A2 (ofValue A2 (Sum.inl 3)) (ofValue A2 (Sum.inl 7)) = Except.ok true ∧
    variantLt A2 (moveCtorSelf A2) (ofValue A2 (Sum.inr false)) = Except.ok true := by
  obtain ⟨x, y, hx, hy, he, hl⟩ :=
    (C5_total_order A2 (ofValue A2 (Sum.inl 3)) (ofValue A2 (Sum.inl 7))
      (by decide) (by decide)).2.2.2 (by decide) rfl
  simp only [ofValue, Option.some.injEq] at hx hy
  subst hx
  subst hy
  have h2 := ((C5_total_order A2 (moveCtorSelf A2) (ofValue A2 (Sum.inr false))
      (by decide) (by decide)).2.1 rfl (by decide)).2.1
  exact ⟨he, hl, h2⟩

/-- C6: `emplace` (by type or by index — both dispatch `Destroy` through the
currently bound operation, construct, rebind, retag, and return the new
value) on a live well-formed variant first destroys the current value exactly
once via the bound operation — also when the emplaced alternative equals the
held one — then holds the newly constructed value with the operation rebound
and the tag updated to the new alternative's index, returning that value. -/
theorem C6_emplace (A : AltSet) (v : Variant A) (newVal : A.Val)
    (hwf : wf A v) (hlive : v.type_id ≠ variant_npos) :
    emplace A v newVal =
      ({ data := some newVal, operation := OpBind.forType (A.tyOf newVal),
         type_id := A.tyOf newVal }, newVal, [Event.destroy v.type_id]) := by
  obtain ⟨x, hd, ht, hop, _⟩ := wf_elim hwf hlive
  simp [emplace, hop, hd, do_operation_destroy ht]

/-- C6, witness: re-emplacing the same alternative (`int` over `int`) still
runs the destructor of the previous value exactly once. -/
theorem C6_witness :
    emplace A2 (ofValue A2 (Sum.inl 3)) (Sum.inl 7)
      = ({ data := some (Sum.inl 7), operation := OpBind.forType 0, type_id := 0 },
         Sum.inl 7, [Event.destroy 0]) :=
  C6_emplace A2 (ofValue A2 (Sum.inl 3)) (Sum.inl 7) (by decide) (by decide)

/-- C7: copy construction round-trips the state.  Copying a valueless source
yields a valueless destination; copying a live well-formed source yields a
destination with the same tag holding the copy of the source's value, the
source storage is untouched by the `Copy` dispatch, and — whenever the
alternative's own `==` is reflexive at the held value — the copy compares
equal to the source. -/
theorem C7_copy_roundtrip (A : AltSet) (other : Variant A) (hwf : wf A other) :
    (other.type_id = variant_npos →
      copyCtor A other =
        ({ data := none, operation := other.operation, type_id := variant_npos }, [])) ∧
    (other.type_id ≠ variant_npos →
      ∃ x, other.data = some x ∧
        copyCtor A other =
          ({ data := some x, operation := other.operation, type_id := other.type_id }, []) ∧
        (do_operation A other.operation private_variant.Copy none other.data).2.1
          = other.data ∧
        (A.eqv x x = true →
          variantEq A (copyCtor A other).1 other = Except.ok true)) := by
  constructor
  · intro h
    simp [copyCtor, h]
  · intro h
    obtain ⟨x, hd, ht, hop, hn⟩ := wf_elim hwf h
    refine ⟨x, hd, copyCtor_live h hd ht hop, ?_, fun hrefl => ?_⟩
    · rw [hop, hd, do_operation_copy ht]
    · have he : variantEq A
          { data := some x, operation := other.operation, type_id := other.type_id }
          other = Except.ok (A.eqv x x) :=
        variantEq_live h rfl hn rfl ht hd ht
      rw [copyCtor_live h hd ht hop]
      show variantEq A
        { data := some x, operation := other.operation, type_id := other.type_id }
        other = Except.ok true
      rw [he, hrefl]

/-- C7, witness: copy construction of a live `etl::variant<int, bool>` and
the equality round-trip at a concrete value. -/
theorem C7_witness :
    copyCtor A2 (ofValue A2 (Sum.inl 5))
      = ({ data := some (Sum.inl 5), operation := OpBind.forType 0, type_id := 0 }, []) ∧
    variantEq A2 (copyCtor A2 (ofValue A2 (Sum.inl 5))).1 (ofValue A2 (Sum.inl 5))
      = Except.ok true := by
  obtain ⟨x, hx, hc, _, he⟩ :=
    (C7_copy_roundtrip A2 (ofValue A2 (Sum.inl 5)) (by decide)).2 (by decide)
  simp only [ofValue, Option.some.injEq] at hx
  subst hx
  exact ⟨hc, he (by decide)⟩

/-- C8: move construction.  From a distinct valueless source the destination
becomes valueless; from a self-move the destination becomes valueless; from a
distinct live well-formed source the destination acquires the source's tag
and its move-constructed value, while the source keeps a live, destructible
moved-from value of the same alternative — no destructor runs during this
step (the event list is empty). -/
theorem C8_move_construct (A : AltSet) (other : Variant A) (hwf : wf A other) :
    (other.type_id = variant_npos →
      moveCtor A other =
        ({ data := none, operation := other.operation, type_id := variant_npos },
         other, [])) ∧
    ((moveCtorSelf A).type_id = variant_npos ∧ (moveCtorSelf A).data = none) ∧
    (other.type_id ≠ variant_npos →
      ∃ x, other.data = some x ∧
        moveCtor A other =
          ({ data := some x, operation := other.operation, type_id := other.type_id },
           { other with data := some (A.movedFrom x) }, []) ∧
        A.tyOf (A.movedFrom x) = other.type_id) := by
  refine ⟨fun h => by simp [moveCtor, h], ⟨rfl, rfl⟩, fun h => ?_⟩
  obtain ⟨x, hd, ht, hop, _⟩ := wf_elim hwf h
  exact ⟨x, hd, moveCtor_live h hd ht hop, (A.moved_ty x).trans ht⟩

/-- C8, witness: move construction from a live `etl::variant<int, bool>`
holding alternative 1. -/
theorem C8_witness :
    moveCtor A2 (ofValue A2 (Sum.inr true))
      = ({ data := some (Sum.inr true), operation := OpBind.forType 1, type_id := 1 },
         { data := some (Sum.inr false), operation := OpBind.forType 1, type_id := 1 },
         []) := by
  obtain ⟨x, hx, hm, _⟩ :=
    (C8_move_construct A2 (ofValue A2 (Sum.inr true)) (by decide)).2.2 (by decide)
  simp only [ofValue, Option.some.injEq] at hx
  subst hx
  exact hm

/-- C9: `swap(a, b)` on distinct live well-formed variants is the three-way
move through a temporary; afterwards `a` holds `b`'s prior tag and value,
`b` holds `a`'s prior tag and value, and the only destructor invocations are
on the three moved-from residues left along the way. -/
theorem C9_swap (A : AltSet) (a b : Variant A) (hwa : wf A a) (hwb : wf A b)
    (ha : a.type_id ≠ variant_npos) (hb : b.type_id ≠ variant_npos) :
    ∃ x y, a.data = some x ∧ b.data = some y ∧
      (swapVariant A a b).1 =
        { data := some y, operation := OpBind.forType b.type_id, type_id := b.type_id } ∧
      (swapVariant A a b).2.1 =
        { data := some x, operation := OpBind.forType a.type_id, type_id := a.type_id } ∧
      (swapVariant A a b).2.2 =
        [Event.destroy a.type_id, Event.destroy b.type_id, Event.destroy a.type_id] := by
  obtain ⟨ad, aop, aid⟩ := a
  obtain ⟨bd, bop, bid⟩ := b
  obtain ⟨x, had, hat, haop, _⟩ := wf_elim hwa ha
  obtain ⟨y, hbd, hbt, hbop, _⟩ := wf_elim hwb hb
  replace had : ad = some x := had
  replace haop : aop = OpBind.forType aid := haop
  replace hbd : bd = some y := hbd
  replace hbop : bop = OpBind.forType bid := hbop
  replace hat : A.tyOf x = aid := hat
  replace hbt : A.tyOf y = bid := hbt
  replace ha : aid ≠ variant_npos := ha
  replace hb : bid ≠ variant_npos := hb
  subst had haop hbd hbop
  exact ⟨x, y, rfl, rfl,
    by rw [swap_components ha hb hat hbt],
    by rw [swap_components ha hb hat hbt],
    by rw [swap_components ha hb hat hbt]⟩

/-- C9, witness: `swap` where `a` holds alternative 0 value 5 and `b` holds
alternative 1 value `true`; afterwards the values are exchanged. -/
theorem C9_witness :
    (swapVariant A2 (ofValue A2 (Sum.inl 5)) (ofValue A2 (Sum.inr true))).1 =
      { data := some (Sum.inr true), operation := OpBind.forType 1, type_id := 1 } ∧
    (swapVariant A2 (ofValue A2 (Sum.inl 5)) (ofValue A2 (Sum.inr true))).2.1 =
      { data := some (Sum.inl 5), operation := OpBind.forType 0, type_id := 0 } := by
  obtain ⟨x, y, hx, hy, h1, h2, _⟩ :=
    C9_swap A2 (ofValue A2 (Sum.inl 5)) (ofValue A2 (Sum.inr true))
      (by decide) (by decide) (by decide) (by decide)
  simp only [ofValue, Option.some.injEq] at hx hy
  subst hx
  subst hy
  exact ⟨h1, h2⟩

/-- C10: `holds_alternative<T>` maps the not-found index sentinel to `false`
rather than comparing it against the tag (so a valueless variant does not
spuriously "hold" a non-member type), and for a member type it returns `true`
exactly when the current tag equals that type's index. -/
theorem C10_holds_alternative (A : AltSet) (idx : Nat) (v : Variant A) :
    (idx = variant_npos → holds_alternative A idx v = false) ∧
    (idx ≠ variant_npos →
      (holds_alternative A idx v = true ↔ v.type_id = idx)) := by
  constructor
  · intro h
    simp [holds_alternative, h]
  · intro h
    simp [holds_alternative, h]

/-- C10, witness: on a valueless variant a non-member type (index sentinel)
yields `false` — even though `tag == sentinel` would compare equal — and a
member type is held exactly when the tag matches. -/
theorem C10_witness :
    holds_alternative A2 variant_npos (moveCtorSelf A2) = false ∧
    (holds_alternative A2 0 (ofValue A2 (Sum.inl 7)) = true
      ↔ (ofValue A2 (Sum.inl 7)).type_id = 0) :=
  ⟨(C10_holds_alternative A2 variant_npos (moveCtorSelf A2)).1 rfl,
   (C10_holds_alternative A2 0 (ofValue A2 (Sum.inl 7))).2 (by decide)⟩

end EtlVariant
